import Mathlib

/-!
# oatpp `HttpRequestExecutor`: a shallow embedding

The embedding follows `web/client/HttpRequestExecutor.cpp`:

* `HttpRequestExecutor.execute`, the blocking path, and
* the methods of `ExecutorCoroutine` (`act`, `onConnectionReady`, `readResponse`,
  `parseResponse`), the coroutine started by `executeAsync`.

The collaborators whose code is outside that file (connection provider, stream, wire
serializer, the two `Protocol` parsers, the body decoder) are the fields of `Env`; the
theorems quantify over them.  Calls made on a collaborator are recorded in a `Trace`.

Numbers: `v_size` (the signed size type of the I/O library) is an `Int`; the cast
`(v_int32) x` is `toInt32 x`, two's-complement truncation to 32 bits.
-/

namespace oatpp

/-- An 8-bit character of a buffer (`p_char8` points to these). -/
abbrev Byte := Char

/-- The cast `(v_int32) x` of a wider signed integer: truncation to 32 bits. -/
def toInt32 (x : Int) : Int := (x + 2 ^ 31) % 2 ^ 32 - 2 ^ 31

/-! ## Headers -/

/-- Modelled from the spec: the comparison of two header keys, which is not in the source
files; the spec gives "keys unique by case-insensitive comparison". -/
def keyEquals (a b : String) : Bool :=
  a.data.map Char.toLower == b.data.map Char.toLower

/-- The header mapping: entries in insertion order. -/
abbrev Headers := List (String × String)

namespace Headers

/-- The value stored under a key: that of the first entry whose key compares equal. -/
def get (h : Headers) (key : String) : Option String :=
  match h with
  | [] => none
  | (k, v) :: rest => if keyEquals key k then some v else get rest key

/-- Modelled from the spec: the method `putIfNotExists(key, value)` of the header map,
whose class is not in the source files; the spec gives "first-write semantics for set if
absent" on an ordered mapping with "insertion order preserved": an absent key is
appended, a present key leaves the map as it is. -/
def putIfNotExists (h : Headers) (key value : String) : Headers :=
  match get h key with
  | none => h ++ [(key, value)]
  | some _ => h

/-- Modelled from the spec: the method `put(key, value)` of the header map, used by the
header parser: the value of a present key is replaced in place, an absent key is
appended. -/
def put (h : Headers) (key value : String) : Headers :=
  match h with
  | [] => [(key, value)]
  | (k, v) :: rest =>
    if keyEquals key k then (k, value) :: rest else (k, v) :: put rest key value

end Headers

/-- Modelled from the spec: the header name `Header::HOST`; the constants of
`oatpp::web::protocol::http::Header` are not in the source files, the spec names the
injected defaults `Host` and `Connection: keep-alive`. -/
def Header.HOST : String := "Host"

/-- Modelled from the spec: the header name `Header::CONNECTION`, as `Header.HOST`. -/
def Header.CONNECTION : String := "Connection"

/-- Modelled from the spec: the header value `Header::Value::CONNECTION_KEEP_ALIVE`, as
`Header.HOST`. -/
def Header.Value.CONNECTION_KEEP_ALIVE : String := "keep-alive"

/-! ## Data model -/

/-- A connection: `std::shared_ptr<IOStream>`, known by the identity of the stream. -/
structure IOStream where
  id : Nat
  deriving DecidableEq

/-- The connection handle a caller may pass in; `connection` may be a null pointer. -/
structure HttpConnectionHandle where
  connection : Option IOStream
  deriving DecidableEq

/-- The body of an outgoing request. -/
structure Body where
  data : List Byte
  deriving DecidableEq

/-- The body decoder `m_bodyDecoder` of the executor, kept as an identity. -/
structure BodyDecoder where
  id : Nat
  deriving DecidableEq

/-- The transport buffer `oatpp::data::buffer::IOBuffer`: `getData()` is `data` and
`getSize()` is the fixed capacity, the number of bytes of `data`. -/
structure IOBuffer where
  data : List Byte
  deriving DecidableEq

/-- The capacity `ioBuffer->getSize()`. -/
def IOBuffer.getSize (b : IOBuffer) : Int := b.data.length

/-- The outgoing request built by `outgoing::Request::createShared`. -/
structure Request where
  method : String
  path : String
  headers : Headers
  body : Option Body
  deriving DecidableEq

/-- The constructor `Request::createShared(method, path, headers, body)`. -/
def Request.createShared (method path : String) (headers : Headers) (body : Option Body) :
    Request :=
  { method := method, path := path, headers := headers, body := body }

/-- The caret `oatpp::parser::ParsingCaret(data, size)`: the bytes, the number of them the
parser may look at, and the cursor. -/
structure ParsingCaret where
  data : List Byte
  size : Int
  pos : Nat
  deriving DecidableEq

/-- The constructor `ParsingCaret(data, size)`: the cursor starts at 0. -/
def ParsingCaret.create (data : List Byte) (size : Int) : ParsingCaret :=
  { data := data, size := size, pos := 0 }

/-- The cursor `caret.getPosition()`. -/
def ParsingCaret.getPosition (c : ParsingCaret) : Int := c.pos

/-- The parsed first line of a response (`line->statusCode`, `line->description`). -/
structure ResponseStartingLine where
  statusCode : Int
  description : String
  deriving DecidableEq

/-- The value `protocol::http::Status`; a default-constructed one has code 0. -/
structure Status where
  code : Int
  description : String
  deriving DecidableEq

/-- The default-constructed `Status error;`. -/
def Status.create : Status := { code := 0, description := "" }

/-- The body stream `InputStreamBufferedProxy::createShared(stream, buffer, pos, end)`. -/
structure InputStreamBufferedProxy where
  inputStream : Option IOStream
  buffer : IOBuffer
  pos : Int
  size : Int
  deriving DecidableEq

/-- The constructor of the body stream, with the four arguments of the source. -/
def InputStreamBufferedProxy.createShared (stream : Option IOStream) (buffer : IOBuffer)
    (positionStart positionEnd : Int) : InputStreamBufferedProxy :=
  { inputStream := stream, buffer := buffer, pos := positionStart, size := positionEnd }

/-- The response `Response::createShared(statusCode, description, headers, bodyStream,
bodyDecoder)`; `headers` is the pointer returned by the header parser. -/
structure Response where
  statusCode : Int
  description : String
  headers : Option Headers
  bodyStream : InputStreamBufferedProxy
  bodyDecoder : BodyDecoder
  deriving DecidableEq

/-- The constructor of the response, with the five arguments of the source. -/
def Response.createShared (statusCode : Int) (description : String)
    (headers : Option Headers) (bodyStream : InputStreamBufferedProxy)
    (bodyDecoder : BodyDecoder) : Response :=
  { statusCode := statusCode, description := description, headers := headers,
    bodyStream := bodyStream, bodyDecoder := bodyDecoder }

/-- The error codes of `RequestExecutionError`. -/
inductive ErrorCode where
  | CANT_CONNECT
  | CANT_PARSE_STARTING_LINE
  | CANT_PARSE_HEADERS
  | CANT_READ_RESPONSE
  | NO_RESPONSE
  deriving DecidableEq

/-- The exception `RequestExecutionError(errorCode, message, readErrorCode = 0)`. -/
structure RequestExecutionError where
  errorCode : ErrorCode
  message : String
  readErrorCode : Int
  deriving DecidableEq

/-- A call made on a collaborator during an execution. -/
inductive Call where
  | getConnection
  | getConnectionAsync
  | getHost
  | send (connection : IOStream) (request : Request)
  | flush (connection : IOStream)
  | read (connection : IOStream)
  | parseResponseStartingLine
  | parseHeaders
  deriving DecidableEq

/-- The calls of an execution, in order. -/
abbrev Trace := List Call

/-- The collaborators of the executor. -/
structure Env where
  /-- The pointer returned by `m_connectionProvider->getConnection()`. -/
  getConnection : Option IOStream
  /-- The host returned by `m_connectionProvider->getHost()`. -/
  getHost : String
  /-- The buffer handed out by `IOBuffer::createShared()`. -/
  createBuffer : IOBuffer
  /-- The buffer after `request->send(upStream); upStream->flush()` wrote the request
  through it to the connection. -/
  send : Request → IOStream → IOBuffer → IOBuffer
  /-- The call `connection->read(data, size)`: the value returned, the buffer after. -/
  read : IOStream → IOBuffer → Int × IOBuffer
  /-- The parser `Protocol::parseResponseStartingLine(caret)`: the line, the caret after. -/
  parseResponseStartingLine : ParsingCaret → Option ResponseStartingLine × ParsingCaret
  /-- The parser `Protocol::parseHeaders(caret, error)`: the headers, the status and the
  caret after. -/
  parseHeaders : ParsingCaret → Status → Option Headers × Status × ParsingCaret
  /-- The executor's `m_bodyDecoder`. -/
  bodyDecoder : BodyDecoder

/-! ## The blocking path: `HttpRequestExecutor::execute` -/

namespace HttpRequestExecutor

/-- Lines 86-91 of `execute`: the connection of the handle if a handle was passed, the
provider's otherwise; with the provider calls made. -/
def execute_connection (env : Env) (connectionHandle : Option HttpConnectionHandle) :
    Trace × Option IOStream :=
  match connectionHandle with
  | some handle => ([], handle.connection)
  | none => ([Call.getConnection], env.getConnection)

/-- Lines 98-101 of `execute`: the request with the two default headers put if absent. -/
def execute_request (env : Env) (method path : String) (headers : Headers)
    (body : Option Body) : Request :=
  let request := Request.createShared method path headers body
  let request := { request with
    headers := request.headers.putIfNotExists Header.HOST env.getHost }
  let request := { request with
    headers := request.headers.putIfNotExists Header.CONNECTION
      Header.Value.CONNECTION_KEEP_ALIVE }
  request

/-- Lines 103-109 of `execute`: the buffer is created, the request is sent through it,
and one read is made into it. The result is `readCount` and the buffer after the read. -/
def execute_read (env : Env) (request : Request) (connection : IOStream) : Int × IOBuffer :=
  let ioBuffer := env.createBuffer
  let ioBuffer := env.send request connection ioBuffer
  env.read connection ioBuffer

/-- Lines 111-139 of `execute`: what follows the read, given `readCount` and the buffer. -/
def execute_response (env : Env) (connection : IOStream) (ioBuffer : IOBuffer)
    (readCount : Int) : Trace × Except RequestExecutionError Response :=
  if readCount = 0 then
    ([], .error
      { errorCode := .NO_RESPONSE,
        message := "[oatpp::web::client::HttpRequestExecutor::execute()]: No response from server",
        readErrorCode := 0 })
  else if readCount < 0 then
    ([], .error
      { errorCode := .CANT_READ_RESPONSE,
        message := "[oatpp::web::client::HttpRequestExecutor::execute()]: Failed to read response. Check out the RequestExecutionError::getReadErrorCode() for more information",
        readErrorCode := toInt32 readCount })
  else
    let caret := ParsingCaret.create ioBuffer.data ioBuffer.getSize
    let (line, caret) := env.parseResponseStartingLine caret
    match line with
    | none =>
      ([Call.parseResponseStartingLine], .error
        { errorCode := .CANT_PARSE_STARTING_LINE,
          message := "[oatpp::web::client::HttpRequestExecutor::execute()]: Failed to parse response. Invalid starting line",
          readErrorCode := 0 })
    | some line =>
      let error := Status.create
      let (responseHeaders, error, caret) := env.parseHeaders caret error
      if error.code ≠ 0 then
        ([Call.parseResponseStartingLine, Call.parseHeaders], .error
          { errorCode := .CANT_PARSE_HEADERS,
            message := "[oatpp::web::client::HttpRequestExecutor::execute()]: Failed to parse response. Invalid headers section",
            readErrorCode := 0 })
      else
        let bodyStream := InputStreamBufferedProxy.createShared (some connection) ioBuffer
          caret.getPosition (toInt32 readCount)
        ([Call.parseResponseStartingLine, Call.parseHeaders], .ok
          (Response.createShared line.statusCode line.description responseHeaders
            bodyStream env.bodyDecoder))

/-- The method `HttpRequestExecutor::execute(method, path, headers, body,
connectionHandle)`: the calls made and the response returned or the error thrown. -/
def execute (env : Env) (method path : String) (headers : Headers) (body : Option Body)
    (connectionHandle : Option HttpConnectionHandle) :
    Trace × Except RequestExecutionError Response :=
  let acquired := execute_connection env connectionHandle
  match acquired.2 with
  | none =>
    (acquired.1, .error
      { errorCode := .CANT_CONNECT,
        message := "[oatpp::web::client::HttpRequestExecutor::execute()]: ConnectionProvider failed to provide Connection",
        readErrorCode := 0 })
  | some connection =>
    let request := execute_request env method path headers body
    let received := execute_read env request connection
    let outcome := execute_response env connection received.2 received.1
    (acquired.1 ++ [Call.getHost, Call.send connection request, Call.flush connection,
        Call.read connection] ++ outcome.1, outcome.2)

end HttpRequestExecutor

/-! ## The coroutine path: `ExecutorCoroutine` of `executeAsync` -/

/-- The member functions of `ExecutorCoroutine` a coroutine can yield to. -/
inductive FunctionPtr where
  | onConnectionReady
  | readResponse
  | parseResponse
  deriving DecidableEq

/-- The output proxy `OutputStreamBufferedProxy::createShared(connection, buffer)`. -/
structure OutputStreamBufferedProxy where
  outputStream : Option IOStream
  buffer : IOBuffer
  deriving DecidableEq

/-- The value a coroutine method returns: what the scheduler is to do next.
`error` and `_return` are the two terminal outcomes, Failed and Returned; a failure
made by `error(message)` holds the message and nothing else. -/
inductive Action where
  /-- The action `yieldTo(&ExecutorCoroutine::fn)`. -/
  | yieldTo (fn : FunctionPtr)
  /-- The action `error(message)`. -/
  | error (message : String)
  /-- The action `_return(response)`. -/
  | _return (response : Response)
  /-- The action returned by `m_connectionProvider->getConnectionAsync(this, callback)`. -/
  | getConnectionAsync (callback : FunctionPtr)
  /-- The action `request->sendAsync(this, next, upStream)`. -/
  | sendAsync (request : Request) (next : Action) (upStream : OutputStreamBufferedProxy)
  /-- The action `upStream->flushAsync(this, next)`. -/
  | flushAsync (upStream : OutputStreamBufferedProxy) (next : Action)
  /-- The action `readSomeDataAsyncInline(stream, pointer, bytesLeft, next)`; the
  pointer is an offset into the coroutine's buffer. -/
  | readSomeDataAsyncInline (stream : Option IOStream) (bufferPointer : Int)
      (bytesLeftToRead : Int) (next : Action)
  deriving DecidableEq

/-- The response of a Returned terminal outcome, if the action is one. -/
def Action.response? : Action → Option Response
  | ._return response => some response
  | _ => none

/-- The fields of `ExecutorCoroutine` (`m_connectionProvider` is the `Env`). -/
structure ExecutorCoroutine where
  m_method : String
  m_path : String
  m_headers : Headers
  m_body : Option Body
  m_bodyDecoder : BodyDecoder
  m_connectionHandle : Option HttpConnectionHandle
  m_connection : Option IOStream
  m_ioBuffer : IOBuffer
  m_bufferPointer : Int
  m_bufferBytesLeftToRead : Int
  deriving DecidableEq

namespace ExecutorCoroutine

/-- The constructor of `ExecutorCoroutine`, called by `executeAsync` with the executor's
provider and body decoder and the caller's arguments. The members the constructor leaves
unset are given placeholder values; `onConnectionReady` assigns each before it is read. -/
def create (env : Env) (method path : String) (headers : Headers) (body : Option Body)
    (connectionHandle : Option HttpConnectionHandle) : ExecutorCoroutine :=
  { m_method := method, m_path := path, m_headers := headers, m_body := body,
    m_bodyDecoder := env.bodyDecoder, m_connectionHandle := connectionHandle,
    m_connection := none, m_ioBuffer := { data := [] }, m_bufferPointer := 0,
    m_bufferBytesLeftToRead := 0 }

/-- The method `ExecutorCoroutine::onConnectionReady(connection)`: the coroutine after,
the calls made and the action returned. -/
def onConnectionReady (env : Env) (self : ExecutorCoroutine) (connection : Option IOStream) :
    ExecutorCoroutine × Trace × Action :=
  let self := { self with m_connection := connection }
  let request := Request.createShared self.m_method self.m_path self.m_headers self.m_body
  let request := { request with
    headers := request.headers.putIfNotExists Header.HOST env.getHost }
  let request := { request with
    headers := request.headers.putIfNotExists Header.CONNECTION
      Header.Value.CONNECTION_KEEP_ALIVE }
  let self := { self with m_ioBuffer := env.createBuffer }
  let upStream : OutputStreamBufferedProxy :=
    { outputStream := connection, buffer := self.m_ioBuffer }
  let self := { self with m_bufferPointer := 0 }
  let self := { self with m_bufferBytesLeftToRead := self.m_ioBuffer.getSize }
  (self, [Call.getHost],
    Action.sendAsync request
      (Action.flushAsync upStream (Action.yieldTo FunctionPtr.readResponse)) upStream)

/-- The method `ExecutorCoroutine::act()`. -/
def act (env : Env) (self : ExecutorCoroutine) : ExecutorCoroutine × Trace × Action :=
  match self.m_connectionHandle with
  | some handle => onConnectionReady env self handle.connection
  | none => (self, [Call.getConnectionAsync],
      Action.getConnectionAsync FunctionPtr.onConnectionReady)

/-- The method `ExecutorCoroutine::readResponse()`. -/
def readResponse (self : ExecutorCoroutine) : Action :=
  Action.readSomeDataAsyncInline self.m_connection self.m_bufferPointer
    self.m_bufferBytesLeftToRead (Action.yieldTo FunctionPtr.parseResponse)

/-- The method `ExecutorCoroutine::parseResponse()`: the calls made and the action. -/
def parseResponse (env : Env) (self : ExecutorCoroutine) : Trace × Action :=
  let readCount : Int := self.m_ioBuffer.getSize - self.m_bufferBytesLeftToRead
  if readCount > 0 then
    let caret := ParsingCaret.create self.m_ioBuffer.data self.m_ioBuffer.getSize
    let (line, caret) := env.parseResponseStartingLine caret
    match line with
    | none => ([Call.parseResponseStartingLine], Action.error "Invalid starting line")
    | some line =>
      let err := Status.create
      let (headers, err, caret) := env.parseHeaders caret err
      if err.code ≠ 0 then
        ([Call.parseResponseStartingLine, Call.parseHeaders],
          Action.error "can't parse headers")
      else
        let bodyStream := InputStreamBufferedProxy.createShared self.m_connection
          self.m_ioBuffer caret.getPosition (toInt32 readCount)
        ([Call.parseResponseStartingLine, Call.parseHeaders],
          Action._return (Response.createShared line.statusCode line.description headers
            bodyStream self.m_bodyDecoder))
  else
    ([], Action.error "Read zero bytes from Response")

end ExecutorCoroutine

/-- The coroutine `executeAsync(parentCoroutine, callback, method, path, headers, body,
connectionHandle)` starts for a result. -/
def HttpRequestExecutor.executeAsync (env : Env) (method path : String) (headers : Headers)
    (body : Option Body) (connectionHandle : Option HttpConnectionHandle) :
    ExecutorCoroutine :=
  ExecutorCoroutine.create env method path headers body connectionHandle

/-! ## What a caller observes of a failure -/

/-- The error code of the exception an execution threw, if it threw one. -/
def thrownCode (r : Except RequestExecutionError Response) : Option ErrorCode :=
  match r with
  | .error e => some e.errorCode
  | .ok _ => none

/-- What a failed execution hands over: the exception thrown by `execute`, or the message
of the `error(message)` action a coroutine method returned. -/
inductive Failure where
  | exception (e : RequestExecutionError)
  | message (text : String)
  deriving DecidableEq

/-- The typed error kind a failure carries: the code of a `RequestExecutionError`; an
`error(message)` action has none. -/
def Failure.errorCode? : Failure → Option ErrorCode
  | .exception e => some e.errorCode
  | .message _ => none

/-- The failure of the blocking path, if it failed. -/
def syncFailure? (r : Except RequestExecutionError Response) : Option Failure :=
  match r with
  | .error e => some (Failure.exception e)
  | .ok _ => none

/-- The failure of a Failed terminal outcome, if the action is one. -/
def Action.failure? : Action → Option Failure
  | .error message => some (Failure.message message)
  | _ => none

/-! ## The collaborators as the spec describes them

The parsers, the wire serializer, the stream and the body stream's `read` are not in the
source files. The definitions of this section follow the spec's description of them; they
give the concrete executions the theorems below are evaluated on. -/

namespace Model

/-- Modelled from the spec: the bytes a caret lets a parser see from the cursor on,
`data[pos .. size)`; `ParsingCaret` is not in the source files, a parser scans "the
buffered bytes" the caret was made over, from its read cursor. -/
def window (c : ParsingCaret) : List Byte := (c.data.take c.size.toNat).drop c.pos

/-- Modelled from the spec: the scan for a "line terminator" of the parser algorithm; the
bytes before the first `\r\n` and the bytes after it. -/
def splitAtCRLF : List Byte → Option (List Byte × List Byte)
  | [] => none
  | c :: rest =>
    if c = Char.ofNat 13 ∧ rest.head? = some (Char.ofNat 10) then some ([], rest.tail)
    else
      match splitAtCRLF rest with
      | some (line, after) => some (c :: line, after)
      | none => none

/-- Modelled from the spec: the "numeric code" a run of decimal digits denotes. -/
def digitsValue (digits : List Byte) : Nat :=
  digits.foldl (fun acc d => 10 * acc + (d.toNat - 48)) 0

/-- Modelled from the spec: "scan for the starting line (status token, numeric code,
description, line terminator); if absent or malformed, fail"; the starting line at the
head of the bytes and the number of bytes it takes. -/
def startingLine (bytes : List Byte) : Option (ResponseStartingLine × Nat) :=
  match splitAtCRLF bytes with
  | none => none
  | some (line, _) =>
    let token := line.takeWhile (fun c => c != ' ')
    let digits := (line.drop (token.length + 1)).takeWhile Char.isDigit
    let afterCode := line.drop (token.length + 1 + digits.length)
    if token = [] ∨ digits = [] ∨ afterCode.head? ≠ some ' ' then none
    else
      some ({ statusCode := digitsValue digits, description := String.mk afterCode.tail },
        line.length + 2)

/-- Modelled from the spec: "scan forward for a run of header lines terminated by an
empty line; if the terminator is never found within the buffered bytes, fail"; the
header lines up to the empty line, and the number of bytes they take with it. Nothing
of a header line is validated "beyond detecting the header-block terminator", so a line
without a colon is kept as a name with an empty value. -/
def headerLines : Nat → List Byte → Headers → Nat → Option (Headers × Nat)
  | 0, _, _, _ => none
  | fuel + 1, bytes, acc, consumed =>
    match splitAtCRLF bytes with
    | none => none
    | some (line, rest) =>
      if line = [] then some (acc, consumed + 2)
      else
        let name := line.takeWhile (fun c => c != ':')
        let value := (line.drop (name.length + 1)).dropWhile (fun c => c == ' ')
        headerLines fuel rest (acc.put (String.mk name) (String.mk value))
          (consumed + line.length + 2)

/-- Modelled from the spec: the parser `Protocol::parseResponseStartingLine(caret)`, which
is not in the source files; it reports the starting line and advances the read cursor
past it, or reports no line. -/
def parseResponseStartingLine (caret : ParsingCaret) :
    Option ResponseStartingLine × ParsingCaret :=
  match startingLine (window caret) with
  | some (line, taken) => (some line, { caret with pos := caret.pos + taken })
  | none => (none, caret)

/-- Modelled from the spec: the parser `Protocol::parseHeaders(caret, error)`, which is
not in the source files; it reports the header mapping and advances the read cursor past
the empty line, or sets an error status. -/
def parseHeaders (caret : ParsingCaret) (error : Status) :
    Option Headers × Status × ParsingCaret :=
  match headerLines ((window caret).length + 1) (window caret) [] 0 with
  | some (headers, taken) => (some headers, error, { caret with pos := caret.pos + taken })
  | none => (none, { code := 400, description := "Bad Request" }, caret)

/-- Modelled from the spec: the "wire-format request serializer", which is not in the
source files; the bytes of a request on the wire are the request line, one line per
header in insertion order, an empty line, the body. -/
def wire (request : Request) : List Byte :=
  (request.method ++ " " ++ request.path ++ " HTTP/1.1\r\n").data
    ++ (request.headers.map (fun kv => (kv.1 ++ ": " ++ kv.2 ++ "\r\n").data)).flatten
    ++ "\r\n".data
    ++ (match request.body with
        | some body => body.data
        | none => [])

/-- Modelled from the spec: the buffer after a run of bytes was stored at its start, as
the output proxy and the stream's read do. -/
def store (bytes : List Byte) (buffer : IOBuffer) : IOBuffer :=
  { data := bytes.take buffer.data.length ++ buffer.data.drop bytes.length }

/-- Modelled from the spec: a read of a stream, which is not in the source files, that
has the given bytes ready or fails with a code; a read returns the number of bytes it
stored at the start of the buffer, zero when there are none, or a negative transport
error code. -/
def read (incoming : Except Int (List Byte)) (buffer : IOBuffer) : Int × IOBuffer :=
  match incoming with
  | .error code => (code, buffer)
  | .ok bytes => (((bytes.take buffer.data.length).length : Nat), store bytes buffer)

/-- Modelled from the spec: an exchange over a "simulated connection"; a provider with
one connection for the host, a buffer of the given capacity through which the request was
written, a stream on which the first read finds the bytes `incoming`, and the parsers as
modelled above. -/
def env (capacity : Nat) (incoming : Except Int (List Byte)) : Env :=
  { getConnection := some { id := 1 },
    getHost := "example.org",
    createBuffer := { data := List.replicate capacity (Char.ofNat 0) },
    send := fun request _ buffer => store (wire request) buffer,
    read := fun _ buffer => read incoming buffer,
    parseResponseStartingLine := parseResponseStartingLine,
    parseHeaders := parseHeaders,
    bodyDecoder := { id := 0 } }

/-- Modelled from the spec: the bytes a body stream holds in its buffer,
`buffer[pos .. size)`; `InputStreamBufferedProxy` is not in the source files, these are
the "bytes already read into the buffer beyond the header terminator". -/
def buffered (s : InputStreamBufferedProxy) : List Byte :=
  (s.buffer.data.take s.size.toNat).drop s.pos.toNat

/-- Modelled from the spec: a read of at most `count` bytes from a body stream, whose
class is not in the source files; the bytes yielded, whether the connection had to be
read, and the stream after. The buffered bytes are "the first bytes the body stream
yields, read exactly once, before falling through to further reads on the live
connection"; `fromConnection` stands for what such a further read yields. -/
def bodyRead (s : InputStreamBufferedProxy) (count : Nat) (fromConnection : List Byte) :
    List Byte × Bool × InputStreamBufferedProxy :=
  if (buffered s).length = 0 then
    (fromConnection.take count, true, { s with pos := 0, size := 0 })
  else
    let given := (buffered s).take count
    (given, false, { s with pos := s.pos.toNat + given.length })

/-- The connection of the simulated exchanges. -/
def connection : IOStream := { id := 1 }

/-- The caller's headers of the scenario `GET /status` with `Accept: text/plain`. -/
def accept : Headers := [("Accept", "text/plain")]

/-- The caller's headers of a second request, with `Accept: text/html`. -/
def acceptHtml : Headers := [("Accept", "text/html")]

/-- The scenario of the spec: the connection echoes a whole response in one read. -/
def scenario : Env := env 128 (.ok "HTTP/1.1 200 OK\r\nContent-Length: 2\r\n\r\nOK".data)

/-- The buffer of the scenario after the read. -/
def scenarioBuffer : IOBuffer :=
  (HttpRequestExecutor.execute_read scenario
    (HttpRequestExecutor.execute_request scenario "GET" "/status" accept none) connection).2

/-- The response the scenario is to give: status 200, description `OK`, the header
`Content-Length: 2`, and a body stream from byte 38 to byte 40 of the buffer. -/
def scenarioResponse : Response :=
  { statusCode := 200, description := "OK", headers := some [("Content-Length", "2")],
    bodyStream :=
      { inputStream := some connection, buffer := scenarioBuffer, pos := 38, size := 40 },
    bodyDecoder := { id := 0 } }

/-- A connection on which the read finds no bytes. -/
def silent : Env := env 128 (.ok [])

/-- A connection on which the read finds bytes that are no status line. -/
def garbled : Env := env 128 (.ok "garbage".data)

/-- A buffer of 22 bytes, all of them read, with a status line and an unfinished header
block. -/
def unfinished : IOBuffer := { data := "HTTP/1.1 200 OK\r\nA: b".data }

/-- A connection on which the first read finds only the first 34 bytes of the response:
the status line and the start of the header block, without its empty line. -/
def truncated : Env := env 128 (.ok "HTTP/1.1 200 OK\r\nContent-Length: 2".data)

/-- A connection on which the first read finds only the 15 bytes `HTTP/1.1 200 OK` of
the response: a starting line whose line end has not arrived. -/
def lineless : Env := env 128 (.ok "HTTP/1.1 200 OK".data)

/-- The buffer after the read on `lineless`, for the scenario's request. -/
def linelessBuffer : IOBuffer :=
  (HttpRequestExecutor.execute_read lineless
    (HttpRequestExecutor.execute_request lineless "GET" "/status" accept none)
    connection).2

/-- The buffer after the read on `truncated`, for the request with the caller's headers. -/
def truncatedBuffer (headers : Headers) : IOBuffer :=
  (HttpRequestExecutor.execute_read truncated
    (HttpRequestExecutor.execute_request truncated "GET" "/status" headers none)
    connection).2

/-- The coroutine of `executeAsync` for the scenario's request, after
`onConnectionReady` ran on the connection. -/
def coroutine (e : Env) : ExecutorCoroutine :=
  (ExecutorCoroutine.onConnectionReady e
    (HttpRequestExecutor.executeAsync e "GET" "/status" accept none none)
    (some connection)).1

end Model

/-! ## The generic value: `oatpp::data::Tree`

The embedding follows `oatpp/data/Tree.hpp`: the members `m_type` and `m_data`, the
template `setValue<T>` and the conversion operator `operator T ()`, for the integer
types `T`. A `memcpy` of the first bytes of an object is taken on a little-endian
target, where they are the low-order bytes. -/

namespace data

/-- The tags `enum class Type` of `Tree`. -/
inductive NodeType where
  | UNDEFINED
  | NULL_VALUE
  | INTEGER
  | FLOAT
  | BOOL
  | INT_8
  | UINT_8
  | INT_16
  | UINT_16
  | INT_32
  | UINT_32
  | INT_64
  | UINT_64
  | FLOAT_32
  | FLOAT_64
  | STRING
  | VECTOR
  | MAP
  deriving DecidableEq

/-- The integer types `T` for which `NodePrimitiveType<T>` is specialised. -/
inductive Primitive where
  | v_int8
  | v_uint8
  | v_int16
  | v_uint16
  | v_int32
  | v_uint32
  | v_int64
  | v_uint64
  deriving DecidableEq

namespace Primitive

/-- The tag `NodePrimitiveType<T>::type`. -/
def type : Primitive → NodeType
  | v_int8 => NodeType.INT_8
  | v_uint8 => NodeType.UINT_8
  | v_int16 => NodeType.INT_16
  | v_uint16 => NodeType.UINT_16
  | v_int32 => NodeType.INT_32
  | v_uint32 => NodeType.UINT_32
  | v_int64 => NodeType.INT_64
  | v_uint64 => NodeType.UINT_64

/-- The size `sizeof(T)` in bytes. -/
def sizeof : Primitive → Nat
  | v_int8 => 1
  | v_uint8 => 1
  | v_int16 => 2
  | v_uint16 => 2
  | v_int32 => 4
  | v_uint32 => 4
  | v_int64 => 8
  | v_uint64 => 8

/-- Whether `T` is a signed type. -/
def signed : Primitive → Bool
  | v_int8 => true
  | v_uint8 => false
  | v_int16 => true
  | v_uint16 => false
  | v_int32 => true
  | v_uint32 => false
  | v_int64 => true
  | v_uint64 => false

/-- The values of `T`: the integers representable in it. -/
def holds (T : Primitive) (v : Int) : Prop :=
  if T.signed then -(2 ^ (8 * T.sizeof - 1) : Int) ≤ v ∧ v < 2 ^ (8 * T.sizeof - 1)
  else 0 ≤ v ∧ v < 2 ^ (8 * T.sizeof)

instance (T : Primitive) (v : Int) : Decidable (T.holds v) := by
  unfold holds
  exact inferInstance

/-- The object representation of a value of `T`: its `sizeof(T)` bytes, two's
complement, as the number they make with the first byte lowest. -/
def bytes (T : Primitive) (v : Int) : Nat := (v % 2 ^ (8 * T.sizeof)).toNat

/-- The conversion `static_cast<T>(value)` of a `v_uint64`: the value modulo `2^w` for
the width `w` of `T`, read as two's complement when `T` is signed. -/
def static_cast (T : Primitive) (value : Nat) : Int :=
  if T.signed then
    ((value : Int) + 2 ^ (8 * T.sizeof - 1)) % 2 ^ (8 * T.sizeof) - 2 ^ (8 * T.sizeof - 1)
  else (value : Int) % 2 ^ (8 * T.sizeof)

end Primitive

/-- The call `std::memcpy(&dst, &src, n)` on two integer objects: the first `n` bytes of
`dst` become the first `n` bytes of `src`, the first byte being the lowest. -/
def memcpy (dst src : Nat) (n : Nat) : Nat := dst / 256 ^ n * 256 ^ n + src % 256 ^ n

/-- The members of `Tree`: the tag and the `LARGEST_TYPE` (`v_uint64`) data word. -/
structure Tree where
  m_type : NodeType
  m_data : Nat
  deriving DecidableEq

/-- The member functions `operator T ()` calls that the header declares and does not
define: `primitiveDataSize()`, `isIntPrimitive()`, `isFloatPrimitive()`. -/
structure TreeMembers where
  primitiveDataSize : Tree → Int
  isIntPrimitive : Tree → Bool
  isFloatPrimitive : Tree → Bool

/-- What `operator T ()` returns: the `static_cast<T>` of the integer read from the data
word, or that of the `v_float32` or `v_float64` whose bytes were read from it. -/
inductive Cast where
  | ofInteger (value : Int)
  | ofFloat32 (bytes : Nat)
  | ofFloat64 (bytes : Nat)
  deriving DecidableEq

namespace Tree

/-- The template `Tree::setValue<T>(value)`; `deleteValueObject()` frees what a string,
vector or map tree holds and leaves the two members to the assignments that follow. -/
def setValue (T : Primitive) (value : Int) (self : Tree) : Tree :=
  let self := { self with m_type := T.type }
  let self := { self with m_data := 0 }
  { self with m_data := memcpy self.m_data (T.bytes value) T.sizeof }

/-- The conversion operator `Tree::operator T ()` for an integer type `T`: the value
returned, or the message of the `std::runtime_error` thrown. -/
def operator_T (members : TreeMembers) (T : Primitive) (self : Tree) : Except String Cast :=
  let size := members.primitiveDataSize self
  if size < 0 then
    .error "[oatpp::data::Tree::operator T ()]: Value NOT a Primitive type."
  else if members.isIntPrimitive self then
    let value : Nat := 0
    let value := memcpy value self.m_data size.toNat
    .ok (Cast.ofInteger (T.static_cast value))
  else if members.isFloatPrimitive self ∧ size = 4 then
    .ok (Cast.ofFloat32 (memcpy 0 self.m_data size.toNat))
  else if members.isFloatPrimitive self ∧ size = 8 then
    .ok (Cast.ofFloat64 (memcpy 0 self.m_data size.toNat))
  else
    .error "[oatpp::data::Tree::operator T ()]: Unable to autocast."

/-- Modelled from the spec: the member functions `primitiveDataSize()`,
`isIntPrimitive()` and `isFloatPrimitive()`, which the header declares and the source
files do not define; the spec does not describe `Tree`, so they are read off the tags:
the data of `BOOL`, `INT_8`, `UINT_8` is 1 byte, of the 16-bit tags 2, of the 32-bit tags
4, of the 64-bit tags 8, of no other tag (-1); `BOOL` and `INT_8` to `UINT_64` are the
integer primitives, `FLOAT_32` and `FLOAT_64` the float primitives. -/
def members : TreeMembers :=
  { primitiveDataSize := fun self =>
      match self.m_type with
      | .BOOL | .INT_8 | .UINT_8 => 1
      | .INT_16 | .UINT_16 => 2
      | .INT_32 | .UINT_32 | .FLOAT_32 => 4
      | .INT_64 | .UINT_64 | .FLOAT_64 => 8
      | _ => -1,
    isIntPrimitive := fun self =>
      match self.m_type with
      | .BOOL | .INT_8 | .UINT_8 | .INT_16 | .UINT_16 | .INT_32 | .UINT_32 | .INT_64
      | .UINT_64 => true
      | _ => false,
    isFloatPrimitive := fun self =>
      match self.m_type with
      | .FLOAT_32 | .FLOAT_64 => true
      | _ => false }

/-- The tree the default constructor `Tree()` makes. -/
def create : Tree := { m_type := NodeType.UNDEFINED, m_data := 0 }

end Tree

end data

/-! ## Lemmas -/

theorem toInt32_eq_self (x : Int) (hlo : -2 ^ 31 ≤ x) (hhi : x < 2 ^ 31) : toInt32 x = x := by
  unfold toInt32
  omega

/-- The calls of lines 86-91 of `execute` are calls on the provider, never on a parser. -/
theorem execute_connection_no_parse (env : Env)
    (connectionHandle : Option HttpConnectionHandle) :
    Call.parseResponseStartingLine ∉
        (HttpRequestExecutor.execute_connection env connectionHandle).1
      ∧ Call.parseHeaders ∉
        (HttpRequestExecutor.execute_connection env connectionHandle).1 := by
  cases connectionHandle <;> simp [HttpRequestExecutor.execute_connection]

/-- A Response returned by the part of `execute` after the read: the count is positive,
and the body stream is made over the connection and the buffer, from the caret's
position to the count cast to 32 bits; `parseResponse` makes the same body stream. -/
theorem execute_response_ok (env : Env) (self : ExecutorCoroutine) (connection : IOStream)
    (ioBuffer : IOBuffer) (n : Int) (response : Response)
    (hok : (HttpRequestExecutor.execute_response env connection ioBuffer n).2
      = Except.ok response) :
    0 < n
    ∧ response.bodyStream
      = InputStreamBufferedProxy.createShared (some connection) ioBuffer
          (env.parseHeaders
            (env.parseResponseStartingLine
              (ParsingCaret.create ioBuffer.data ioBuffer.getSize)).2
            Status.create).2.2.getPosition
          (toInt32 n)
    ∧ (ExecutorCoroutine.parseResponse env
        { self with
          m_connection := some connection
          m_ioBuffer := ioBuffer
          m_bufferBytesLeftToRead := ioBuffer.getSize - n }).2.response?.map
        (fun r => r.bodyStream) = some response.bodyStream := by
  by_cases h0 : n = 0
  · subst h0
    simp [HttpRequestExecutor.execute_response] at hok
  by_cases h1 : n < 0
  · simp [HttpRequestExecutor.execute_response, h0, h1] at hok
  have hn : 0 < n := by omega
  have h2 : ioBuffer.getSize - (ioBuffer.getSize - n) = n := by omega
  rcases hr : env.parseResponseStartingLine
    (ParsingCaret.create ioBuffer.data ioBuffer.getSize) with ⟨line, caret⟩
  rcases hh : env.parseHeaders caret Status.create with ⟨headers, error, caret2⟩
  cases line with
  | none => simp [HttpRequestExecutor.execute_response, h0, h1, hr] at hok
  | some line =>
    by_cases hc : error.code = 0
    · simp only [HttpRequestExecutor.execute_response, h0, h1, hr, hh, hc, if_false,
        ne_eq, not_true_eq_false, Except.ok.injEq] at hok
      subst hok
      simp [ExecutorCoroutine.parseResponse, h2, hn, hr, hh, hc, Action.response?,
        Response.createShared]
    · simp [HttpRequestExecutor.execute_response, h0, h1, hr, hh, hc] at hok

/-- Taking off a list as many elements as its first `count` are leaves what dropping
`count` leaves. -/
theorem drop_length_take {α : Type} (l : List α) (count : Nat) :
    l.drop (l.take count).length = l.drop count := by
  rw [List.length_take]
  rcases Nat.le_total count l.length with h | h
  · rw [Nat.min_eq_left h]
  · rw [Nat.min_eq_right h, List.drop_length, List.drop_eq_nil_of_le h]

/-- A read of a body stream that holds bytes yields the first of them, makes no read of
the connection, and leaves the others held. -/
theorem bodyRead_buffered (s : InputStreamBufferedProxy) (count : Nat)
    (fromConnection : List Byte) (hne : Model.buffered s ≠ []) :
    (Model.bodyRead s count fromConnection).1 = (Model.buffered s).take count
    ∧ (Model.bodyRead s count fromConnection).2.1 = false
    ∧ Model.buffered (Model.bodyRead s count fromConnection).2.2
      = (Model.buffered s).drop count := by
  have hlen : ¬ (Model.buffered s).length = 0 := by
    intro h
    exact hne (List.length_eq_zero.mp h)
  have hnat : ((s.pos.toNat : Int) + (((Model.buffered s).take count).length : Int)).toNat
      = s.pos.toNat + ((Model.buffered s).take count).length := by
    omega
  refine ⟨?_, ?_, ?_⟩
  · simp [Model.bodyRead, hlen]
  · simp [Model.bodyRead, hlen]
  · simp only [Model.bodyRead, hlen, if_false]
    have : Model.buffered
        { s with pos := (s.pos.toNat : Int) + (((Model.buffered s).take count).length : Int) }
        = (Model.buffered s).drop ((Model.buffered s).take count).length := by
      simp only [Model.buffered] at hnat ⊢
      rw [hnat, List.drop_drop, Nat.add_comm]
    rw [this, drop_length_take]

/-- A key compares equal to itself. -/
theorem keyEquals_refl (key : String) : keyEquals key key = true := by
  simp [keyEquals]

/-- The lookup in a map with one entry appended. -/
theorem Headers.get_append (h : Headers) (k v key : String) :
    Headers.get (h ++ [(k, v)]) key
      = match Headers.get h key with
        | some x => some x
        | none => if keyEquals key k then some v else none := by
  induction h with
  | nil => simp [Headers.get]
  | cons entry rest ih =>
    obtain ⟨k0, v0⟩ := entry
    by_cases hk : keyEquals key k0 = true
    · simp [Headers.get, hk]
    · simp only [List.cons_append, Headers.get, hk, if_false]
      exact ih

/-- The method `putIfNotExists` keeps every entry, in order, before what it adds. -/
theorem Headers.putIfNotExists_append (h : Headers) (k v : String) :
    ∃ added : Headers, Headers.putIfNotExists h k v = h ++ added := by
  unfold Headers.putIfNotExists
  cases Headers.get h k with
  | none => exact ⟨[(k, v)], rfl⟩
  | some x => exact ⟨[], (List.append_nil h).symm⟩

/-- The method `putIfNotExists` leaves the value of a present key as it is. -/
theorem Headers.get_putIfNotExists_of_some (h : Headers) (k v key x : String)
    (hx : Headers.get h key = some x) :
    Headers.get (Headers.putIfNotExists h k v) key = some x := by
  unfold Headers.putIfNotExists
  cases hk : Headers.get h k with
  | none => simp [Headers.get_append, hx]
  | some y => simpa using hx

/-- The method `putIfNotExists` leaves the lookup of a key that does not compare equal
to the one put as it is. -/
theorem Headers.get_putIfNotExists_of_ne (h : Headers) (k v key : String)
    (hne : keyEquals key k = false) :
    Headers.get (Headers.putIfNotExists h k v) key = Headers.get h key := by
  unfold Headers.putIfNotExists
  cases hk : Headers.get h k with
  | none =>
    rw [Headers.get_append]
    cases Headers.get h key <;> simp [hne]
  | some y => rfl

/-- After `putIfNotExists` the key has the value it had, or the value put if it had none. -/
theorem Headers.get_putIfNotExists_self (h : Headers) (k v : String) :
    Headers.get (Headers.putIfNotExists h k v) k = some ((Headers.get h k).getD v) := by
  unfold Headers.putIfNotExists
  cases hk : Headers.get h k with
  | none => simp [Headers.get_append, hk, keyEquals_refl]
  | some y => simpa using hk

/-- The method `putIfNotExists` on a present key changes nothing. -/
theorem Headers.putIfNotExists_of_some (h : Headers) (k v x : String)
    (hx : Headers.get h k = some x) : Headers.putIfNotExists h k v = h := by
  simp [Headers.putIfNotExists, hx]

/-- The calls of the part of `execute` after the read are calls on the two parsers. -/
theorem execute_response_calls (env : Env) (connection : IOStream) (ioBuffer : IOBuffer)
    (n : Int) (call : Call)
    (hcall : call ∈ (HttpRequestExecutor.execute_response env connection ioBuffer n).1) :
    call = Call.parseResponseStartingLine ∨ call = Call.parseHeaders := by
  revert hcall
  rcases hr : env.parseResponseStartingLine
    (ParsingCaret.create ioBuffer.data ioBuffer.getSize) with ⟨line, caret⟩
  rcases hh : env.parseHeaders caret Status.create with ⟨headers, error, caret2⟩
  by_cases h0 : n = 0
  · simp [HttpRequestExecutor.execute_response, h0]
  by_cases h1 : n < 0
  · simp [HttpRequestExecutor.execute_response, h0, h1]
  cases line with
  | none =>
    simp only [HttpRequestExecutor.execute_response, h0, h1, hr, if_false, List.mem_singleton]
    exact Or.inl
  | some line =>
    by_cases hc : error.code = 0
    · simp only [HttpRequestExecutor.execute_response, h0, h1, hr, hh, hc, if_false,
        ne_eq, not_true_eq_false, List.mem_cons, List.mem_singleton, List.not_mem_nil,
        or_false]
      exact id
    · simp only [HttpRequestExecutor.execute_response, h0, h1, hr, hh, hc, if_false,
        if_true, ne_eq, not_false_eq_true, List.mem_cons, List.mem_singleton,
        List.not_mem_nil, or_false]
      exact id

/-- The calls of `parseResponse` are calls on the two parsers. -/
theorem parseResponse_calls (env : Env) (self : ExecutorCoroutine) (call : Call)
    (hcall : call ∈ (ExecutorCoroutine.parseResponse env self).1) :
    call = Call.parseResponseStartingLine ∨ call = Call.parseHeaders := by
  revert hcall
  rcases hr : env.parseResponseStartingLine
    (ParsingCaret.create self.m_ioBuffer.data self.m_ioBuffer.getSize) with ⟨line, caret⟩
  rcases hh : env.parseHeaders caret Status.create with ⟨headers, error, caret2⟩
  by_cases h0 : self.m_ioBuffer.getSize - self.m_bufferBytesLeftToRead > 0
  · cases line with
    | none =>
      simp only [ExecutorCoroutine.parseResponse, h0, hr, if_true, List.mem_singleton]
      exact Or.inl
    | some line =>
      by_cases hc : error.code = 0
      · simp only [ExecutorCoroutine.parseResponse, h0, hr, hh, hc, if_true, if_false,
          ne_eq, not_true_eq_false, List.mem_cons, List.mem_singleton, List.not_mem_nil,
          or_false]
        exact id
      · simp only [ExecutorCoroutine.parseResponse, h0, hr, hh, hc, if_true, ne_eq,
          not_false_eq_true, List.mem_cons, List.mem_singleton, List.not_mem_nil, or_false]
        exact id
  · simp [ExecutorCoroutine.parseResponse, h0]

/-- The part of `execute` after the read hands the parsers a caret over the whole buffer,
whatever the count read: with any parsers, two positive counts give the same calls, the
same error kind, and Responses that differ in the end of the body stream at most. -/
theorem execute_response_count_irrelevant (env : Env) (connection : IOStream)
    (ioBuffer : IOBuffer) (n m : Int) (hn : 0 < n) (hm : 0 < m) :
    (HttpRequestExecutor.execute_response env connection ioBuffer n).1
      = (HttpRequestExecutor.execute_response env connection ioBuffer m).1
    ∧ thrownCode (HttpRequestExecutor.execute_response env connection ioBuffer n).2
      = thrownCode (HttpRequestExecutor.execute_response env connection ioBuffer m).2
    ∧ (HttpRequestExecutor.execute_response env connection ioBuffer n).2.toOption.map
        (fun r => (r.statusCode, r.description, r.headers, r.bodyStream.pos))
      = (HttpRequestExecutor.execute_response env connection ioBuffer m).2.toOption.map
        (fun r => (r.statusCode, r.description, r.headers, r.bodyStream.pos)) := by
  have hn0 : ¬ n = 0 := by omega
  have hn1 : ¬ n < 0 := by omega
  have hm0 : ¬ m = 0 := by omega
  have hm1 : ¬ m < 0 := by omega
  rcases hr : env.parseResponseStartingLine
    (ParsingCaret.create ioBuffer.data ioBuffer.getSize) with ⟨line, caret⟩
  rcases hh : env.parseHeaders caret Status.create with ⟨headers, error, caret2⟩
  cases line with
  | none =>
    simp [HttpRequestExecutor.execute_response, hn0, hn1, hm0, hm1, hr, thrownCode,
      Except.toOption]
  | some line =>
    by_cases hc : error.code = 0
    · simp [HttpRequestExecutor.execute_response, hn0, hn1, hm0, hm1, hr, hh, hc,
        thrownCode, Except.toOption, Response.createShared,
        InputStreamBufferedProxy.createShared]
    · simp [HttpRequestExecutor.execute_response, hn0, hn1, hm0, hm1, hr, hh, hc,
        thrownCode, Except.toOption]

/-- A value that is not negative, or that goes to a type no wider than the one it was
stored in, is given back by the cast of its bytes. -/
theorem static_cast_bytes (S T : data.Primitive) (v : Int) (hS : S.holds v) (hT : T.holds v)
    (h : 0 ≤ v ∨ T.sizeof ≤ S.sizeof) : T.static_cast (S.bytes v) = v := by
  cases S <;> cases T <;>
    simp only [data.Primitive.holds, data.Primitive.signed, data.Primitive.sizeof,
      data.Primitive.static_cast, data.Primitive.bytes, if_true, if_false,
      Bool.false_eq_true] at * <;>
    omega

/-- A negative value that goes to a wider type comes out of the cast of its bytes as the
value plus `2^w`, for the width `w` of the type it was stored in. -/
theorem static_cast_bytes_wider (S T : data.Primitive) (v : Int) (hS : S.holds v)
    (hneg : v < 0) (hw : S.sizeof < T.sizeof) :
    T.static_cast (S.bytes v) = v + 2 ^ (8 * S.sizeof) := by
  cases S <;> cases T <;>
    simp only [data.Primitive.holds, data.Primitive.signed, data.Primitive.sizeof,
      data.Primitive.static_cast, data.Primitive.bytes, if_true, if_false,
      Bool.false_eq_true] at * <;>
    omega

/-- With the members read off the tags, `operator T ()` on a tree set by `setValue<S>`
returns the cast to `T` of the bytes of the value. -/
theorem operator_T_setValue (S T : data.Primitive) (v : Int) (self : data.Tree) :
    data.Tree.operator_T data.Tree.members T (data.Tree.setValue S v self)
      = Except.ok (data.Cast.ofInteger (T.static_cast (S.bytes v))) := by
  have hb : S.bytes v % 256 ^ S.sizeof = S.bytes v := by
    apply Nat.mod_eq_of_lt
    cases S <;> simp only [data.Primitive.bytes, data.Primitive.sizeof] <;> omega
  cases S <;>
    simp [data.Tree.operator_T, data.Tree.setValue, data.Tree.members, data.Primitive.type,
      data.memcpy, data.Primitive.sizeof] at hb ⊢ <;>
    rw [Nat.mod_eq_of_lt hb]

/-- Whatever the three undefined members return, `operator T ()` does not give back a
negative value that was stored in a narrower type. -/
theorem operator_T_negative_wider (members : data.TreeMembers) (S T : data.Primitive)
    (v : Int) (self : data.Tree) (hS : S.holds v) (hneg : v < 0)
    (hw : S.sizeof < T.sizeof) :
    data.Tree.operator_T members T (data.Tree.setValue S v self)
      ≠ Except.ok (data.Cast.ofInteger v) := by
  intro h
  have hx : ∀ k : Nat, data.memcpy 0 (S.bytes v) k ≤ S.bytes v := by
    intro k
    simp only [data.memcpy, Nat.zero_div, Nat.zero_mul, Nat.zero_add]
    exact Nat.mod_le _ _
  have hdata : (data.Tree.setValue S v self).m_data = S.bytes v := by
    have hb : S.bytes v % 256 ^ S.sizeof = S.bytes v := by
      apply Nat.mod_eq_of_lt
      cases S <;> simp only [data.Primitive.bytes, data.Primitive.sizeof] <;> omega
    simp [data.Tree.setValue, data.memcpy, hb]
  have hcast : ∀ x : Nat, x ≤ S.bytes v → T.static_cast x ≠ v := by
    intro x hle
    cases S <;> cases T <;>
      simp only [data.Primitive.holds, data.Primitive.signed, data.Primitive.sizeof,
        data.Primitive.static_cast, data.Primitive.bytes, if_true, if_false,
        Bool.false_eq_true] at * <;>
      omega
  unfold data.Tree.operator_T at h
  rw [hdata] at h
  simp only at h
  split at h
  · cases h
  · split at h
    · simp only [Except.ok.injEq, data.Cast.ofInteger.injEq] at h
      exact hcast _ (hx _) h
    · split at h
      · cases h
      · split at h
        · cases h
        · cases h

/-! ## Theorems -/

set_option maxRecDepth 1000000

/-- C1: for every buffer content and every positive read count `n`, with the same parsers,
what follows the read in `execute` and the coroutine's `parseResponse` (whose buffer has
`n` bytes taken off `m_bufferBytesLeftToRead`) make the same parser calls and produce the
same Response, or both none: equal status code, description, header mapping, and a body
stream over the same connection and buffer with the same cursor and the same end. -/
theorem parseResponse_refines_execute (env : Env) (self : ExecutorCoroutine)
    (connection : IOStream) (ioBuffer : IOBuffer) (n : Int) (hn : 0 < n) :
    (ExecutorCoroutine.parseResponse env
        { self with
          m_bodyDecoder := env.bodyDecoder
          m_connection := some connection
          m_ioBuffer := ioBuffer
          m_bufferBytesLeftToRead := ioBuffer.getSize - n }).2.response?
      = (HttpRequestExecutor.execute_response env connection ioBuffer n).2.toOption
    ∧ (ExecutorCoroutine.parseResponse env
        { self with
          m_bodyDecoder := env.bodyDecoder
          m_connection := some connection
          m_ioBuffer := ioBuffer
          m_bufferBytesLeftToRead := ioBuffer.getSize - n }).1
      = (HttpRequestExecutor.execute_response env connection ioBuffer n).1 := by
  have h0 : ¬ n = 0 := by omega
  have h1 : ¬ n < 0 := by omega
  have h2 : ioBuffer.getSize - (ioBuffer.getSize - n) = n := by omega
  rcases hr : env.parseResponseStartingLine
    (ParsingCaret.create ioBuffer.data ioBuffer.getSize) with ⟨line, caret⟩
  rcases hh : env.parseHeaders caret Status.create with ⟨headers, error, caret2⟩
  cases line with
  | none =>
    simp [ExecutorCoroutine.parseResponse, HttpRequestExecutor.execute_response, h0, h1, h2,
      hn, hr, Action.response?, Except.toOption]
  | some line =>
    by_cases hc : error.code = 0
    · simp [ExecutorCoroutine.parseResponse, HttpRequestExecutor.execute_response, h0, h1,
        h2, hn, hr, hh, hc, Action.response?, Except.toOption]
    · simp [ExecutorCoroutine.parseResponse, HttpRequestExecutor.execute_response, h0, h1,
        h2, hn, hr, hh, hc, Action.response?, Except.toOption]

/-- C1, at the scenario of the spec: 40 bytes read into a buffer of 128; both paths give
the response with status 200, description `OK`, header `Content-Length: 2` and a body
stream from byte 38 to byte 40. -/
theorem parseResponse_refines_execute_witness :
    (0 : Int) < 40
    ∧ (HttpRequestExecutor.execute_response Model.scenario Model.connection
        Model.scenarioBuffer 40).2.toOption = some Model.scenarioResponse
    ∧ (ExecutorCoroutine.parseResponse Model.scenario
        { Model.coroutine Model.scenario with
          m_bodyDecoder := Model.scenario.bodyDecoder
          m_connection := some Model.connection
          m_ioBuffer := Model.scenarioBuffer
          m_bufferBytesLeftToRead := Model.scenarioBuffer.getSize - 40 }).2.response?
        = some Model.scenarioResponse :=
  ⟨by decide, rfl,
    (parseResponse_refines_execute Model.scenario (Model.coroutine Model.scenario)
      Model.connection Model.scenarioBuffer 40 (by decide)).1.trans rfl⟩

/-- C2 as stated fails: when the read finds no bytes, `execute` throws an error of kind
NO_RESPONSE, while the failure `parseResponse` ends in holds the message
`Read zero bytes from Response` and no error kind. -/
theorem parseResponse_failure_not_typed :
    thrownCode (HttpRequestExecutor.execute Model.silent "GET" "/status" Model.accept
      none none).2 = some ErrorCode.NO_RESPONSE
    ∧ (ExecutorCoroutine.parseResponse Model.silent (Model.coroutine Model.silent)).2.failure?
      = some (Failure.message "Read zero bytes from Response")
    ∧ (ExecutorCoroutine.parseResponse Model.silent
        (Model.coroutine Model.silent)).2.failure?.bind Failure.errorCode?
      ≠ (syncFailure? (HttpRequestExecutor.execute Model.silent "GET" "/status" Model.accept
        none none).2).bind Failure.errorCode? := by
  refine ⟨rfl, rfl, ?_⟩
  have hnone : (ExecutorCoroutine.parseResponse Model.silent
      (Model.coroutine Model.silent)).2.failure?.bind Failure.errorCode? = none := rfl
  have hsome : (syncFailure? (HttpRequestExecutor.execute Model.silent "GET" "/status"
      Model.accept none none).2).bind Failure.errorCode? = some ErrorCode.NO_RESPONSE := rfl
  rw [hnone, hsome]
  exact fun h => Option.noConfusion h

/-- C2, amended: for every failing exchange the coroutine's `parseResponse` ends in a
Failed outcome and produces no Response; the failure holds a message, not an error kind:
`Read zero bytes from Response` where `execute` throws NO_RESPONSE (zero bytes read),
`Invalid starting line` where it throws CANT_PARSE_STARTING_LINE (the parser reports no
line), `can't parse headers` where it throws CANT_PARSE_HEADERS (the header parser sets
an error status). -/
theorem parseResponse_failure_message (env : Env) (self : ExecutorCoroutine)
    (connection : IOStream) (ioBuffer : IOBuffer) (n : Int) :
    (n = 0 →
      thrownCode (HttpRequestExecutor.execute_response env connection ioBuffer n).2
        = some ErrorCode.NO_RESPONSE
      ∧ (ExecutorCoroutine.parseResponse env
          { self with
            m_connection := some connection
            m_ioBuffer := ioBuffer
            m_bufferBytesLeftToRead := ioBuffer.getSize - n }).2
        = Action.error "Read zero bytes from Response")
    ∧ (0 < n →
      (env.parseResponseStartingLine
        (ParsingCaret.create ioBuffer.data ioBuffer.getSize)).1 = none →
      thrownCode (HttpRequestExecutor.execute_response env connection ioBuffer n).2
        = some ErrorCode.CANT_PARSE_STARTING_LINE
      ∧ (ExecutorCoroutine.parseResponse env
          { self with
            m_connection := some connection
            m_ioBuffer := ioBuffer
            m_bufferBytesLeftToRead := ioBuffer.getSize - n }).2
        = Action.error "Invalid starting line")
    ∧ (0 < n →
      (env.parseResponseStartingLine
        (ParsingCaret.create ioBuffer.data ioBuffer.getSize)).1 ≠ none →
      (env.parseHeaders
        (env.parseResponseStartingLine
          (ParsingCaret.create ioBuffer.data ioBuffer.getSize)).2 Status.create).2.1.code ≠ 0 →
      thrownCode (HttpRequestExecutor.execute_response env connection ioBuffer n).2
        = some ErrorCode.CANT_PARSE_HEADERS
      ∧ (ExecutorCoroutine.parseResponse env
          { self with
            m_connection := some connection
            m_ioBuffer := ioBuffer
            m_bufferBytesLeftToRead := ioBuffer.getSize - n }).2
        = Action.error "can't parse headers")
    ∧ ∀ message : String, (Action.error message).response? = none := by
  rcases hr : env.parseResponseStartingLine
    (ParsingCaret.create ioBuffer.data ioBuffer.getSize) with ⟨line, caret⟩
  rcases hh : env.parseHeaders caret Status.create with ⟨headers, error, caret2⟩
  refine ⟨?_, ?_, ?_, fun _ => rfl⟩
  · intro h0
    subst h0
    simp [ExecutorCoroutine.parseResponse, HttpRequestExecutor.execute_response, thrownCode]
  · intro hpos hline
    have h0 : ¬ n = 0 := by omega
    have h1 : ¬ n < 0 := by omega
    have h2 : ioBuffer.getSize - (ioBuffer.getSize - n) = n := by omega
    simp only at hline
    subst hline
    simp [ExecutorCoroutine.parseResponse, HttpRequestExecutor.execute_response, thrownCode,
      h0, h1, h2, hpos, hr]
  · intro hpos hline hcode
    have h0 : ¬ n = 0 := by omega
    have h1 : ¬ n < 0 := by omega
    have h2 : ioBuffer.getSize - (ioBuffer.getSize - n) = n := by omega
    simp only [hh] at hcode
    cases line with
    | none => exact absurd rfl hline
    | some line =>
      simp [ExecutorCoroutine.parseResponse, HttpRequestExecutor.execute_response,
        thrownCode, h0, h1, h2, hpos, hr, hh, hcode]

/-- C2, amended, at three exchanges: no bytes read; 7 bytes `garbage` read; 22 bytes read
that hold a status line and a header block without its empty line. -/
theorem parseResponse_failure_message_witness :
    (thrownCode (HttpRequestExecutor.execute_response Model.silent Model.connection
        Model.silent.createBuffer 0).2 = some ErrorCode.NO_RESPONSE
      ∧ (ExecutorCoroutine.parseResponse Model.silent
          { Model.coroutine Model.silent with
            m_connection := some Model.connection
            m_ioBuffer := Model.silent.createBuffer
            m_bufferBytesLeftToRead := Model.silent.createBuffer.getSize - 0 }).2
        = Action.error "Read zero bytes from Response")
    ∧ (thrownCode (HttpRequestExecutor.execute_response Model.garbled Model.connection
        (Model.store "garbage".data Model.garbled.createBuffer) 7).2
          = some ErrorCode.CANT_PARSE_STARTING_LINE
      ∧ (ExecutorCoroutine.parseResponse Model.garbled
          { Model.coroutine Model.garbled with
            m_connection := some Model.connection
            m_ioBuffer := Model.store "garbage".data Model.garbled.createBuffer
            m_bufferBytesLeftToRead :=
              (Model.store "garbage".data Model.garbled.createBuffer).getSize - 7 }).2
        = Action.error "Invalid starting line")
    ∧ (thrownCode (HttpRequestExecutor.execute_response Model.scenario Model.connection
        Model.unfinished 22).2 = some ErrorCode.CANT_PARSE_HEADERS
      ∧ (ExecutorCoroutine.parseResponse Model.scenario
          { Model.coroutine Model.scenario with
            m_connection := some Model.connection
            m_ioBuffer := Model.unfinished
            m_bufferBytesLeftToRead := Model.unfinished.getSize - 22 }).2
        = Action.error "can't parse headers") :=
  ⟨(parseResponse_failure_message Model.silent (Model.coroutine Model.silent)
      Model.connection Model.silent.createBuffer 0).1 rfl,
    (parseResponse_failure_message Model.garbled (Model.coroutine Model.garbled)
      Model.connection (Model.store "garbage".data Model.garbled.createBuffer) 7).2.1
      (by decide) rfl,
    (parseResponse_failure_message Model.scenario (Model.coroutine Model.scenario)
      Model.connection Model.unfinished 22).2.2.1 (by decide) (by decide) (by decide)⟩

/-- C3: when a connection is obtained and the read on it returns 0, `execute` throws the
error NO_RESPONSE and returns no Response, whatever the collaborators put in the buffer;
no parser is called. -/
theorem execute_zero_read (env : Env) (method path : String) (headers : Headers)
    (body : Option Body) (connectionHandle : Option HttpConnectionHandle)
    (connection : IOStream)
    (hconn : (HttpRequestExecutor.execute_connection env connectionHandle).2
      = some connection)
    (hread : (HttpRequestExecutor.execute_read env
      (HttpRequestExecutor.execute_request env method path headers body) connection).1 = 0) :
    (∃ e : RequestExecutionError,
      (HttpRequestExecutor.execute env method path headers body connectionHandle).2
        = Except.error e
      ∧ e.errorCode = ErrorCode.NO_RESPONSE)
    ∧ (HttpRequestExecutor.execute env method path headers body connectionHandle).2.toOption
      = none
    ∧ Call.parseResponseStartingLine ∉
      (HttpRequestExecutor.execute env method path headers body connectionHandle).1
    ∧ Call.parseHeaders ∉
      (HttpRequestExecutor.execute env method path headers body connectionHandle).1 := by
  have htrace := execute_connection_no_parse env connectionHandle
  simp only [HttpRequestExecutor.execute, hconn, hread,
    HttpRequestExecutor.execute_response, if_true]
  refine ⟨⟨_, rfl, rfl⟩, rfl, ?_, ?_⟩
  · simp [htrace.1]
  · simp [htrace.2]

/-- C3, at a connection on which the read finds no bytes. -/
theorem execute_zero_read_witness :
    (HttpRequestExecutor.execute_connection Model.silent none).2 = some Model.connection
    ∧ (HttpRequestExecutor.execute_read Model.silent
        (HttpRequestExecutor.execute_request Model.silent "GET" "/status" Model.accept none)
        Model.connection).1 = 0
    ∧ thrownCode (HttpRequestExecutor.execute Model.silent "GET" "/status" Model.accept
        none none).2 = some ErrorCode.NO_RESPONSE :=
  ⟨rfl, rfl, by
    obtain ⟨e, he, hk⟩ := (execute_zero_read Model.silent "GET" "/status" Model.accept none
      none Model.connection rfl rfl).1
    rw [he, ← hk]
    rfl⟩

/-- The throw of line 122: when a connection is obtained, the read returns a positive
count and the starting-line parser, run on the caret `execute` makes over the whole
capacity of the buffer, reports no line, `execute` throws the error
CANT_PARSE_STARTING_LINE; the header parser is not called and no Response is made. -/
theorem execute_no_starting_line (env : Env) (method path : String) (headers : Headers)
    (body : Option Body) (connectionHandle : Option HttpConnectionHandle)
    (connection : IOStream)
    (hconn : (HttpRequestExecutor.execute_connection env connectionHandle).2
      = some connection)
    (hread : 0 < (HttpRequestExecutor.execute_read env
      (HttpRequestExecutor.execute_request env method path headers body) connection).1)
    (hline : (env.parseResponseStartingLine
      (ParsingCaret.create
        (HttpRequestExecutor.execute_read env
          (HttpRequestExecutor.execute_request env method path headers body)
          connection).2.data
        (HttpRequestExecutor.execute_read env
          (HttpRequestExecutor.execute_request env method path headers body)
          connection).2.getSize)).1 = none) :
    (∃ e : RequestExecutionError,
      (HttpRequestExecutor.execute env method path headers body connectionHandle).2
        = Except.error e
      ∧ e.errorCode = ErrorCode.CANT_PARSE_STARTING_LINE)
    ∧ (HttpRequestExecutor.execute env method path headers body connectionHandle).2.toOption
      = none
    ∧ Call.parseHeaders ∉
      (HttpRequestExecutor.execute env method path headers body connectionHandle).1 := by
  have h0 : ¬ (HttpRequestExecutor.execute_read env
      (HttpRequestExecutor.execute_request env method path headers body) connection).1 = 0 := by
    omega
  have h1 : ¬ (HttpRequestExecutor.execute_read env
      (HttpRequestExecutor.execute_request env method path headers body) connection).1 < 0 := by
    omega
  have htrace := (execute_connection_no_parse env connectionHandle).2
  rcases hr : env.parseResponseStartingLine
      (ParsingCaret.create
        (HttpRequestExecutor.execute_read env
          (HttpRequestExecutor.execute_request env method path headers body)
          connection).2.data
        (HttpRequestExecutor.execute_read env
          (HttpRequestExecutor.execute_request env method path headers body)
          connection).2.getSize) with ⟨line, caret⟩
  rw [hr] at hline
  simp only at hline
  subst hline
  simp only [HttpRequestExecutor.execute, hconn, HttpRequestExecutor.execute_response, h0, h1,
    hr, if_false]
  refine ⟨⟨_, rfl, rfl⟩, rfl, ?_⟩
  simp [htrace]

/-- The throw of line 122, at a connection on which the read finds the 7 bytes `garbage`,
which with the bytes that follow them in the buffer make no status line. -/
theorem execute_no_starting_line_witness :
    (HttpRequestExecutor.execute_connection Model.garbled none).2 = some Model.connection
    ∧ (HttpRequestExecutor.execute_read Model.garbled
        (HttpRequestExecutor.execute_request Model.garbled "GET" "/status" Model.accept none)
        Model.connection).1 = 7
    ∧ thrownCode (HttpRequestExecutor.execute Model.garbled "GET" "/status" Model.accept
        none none).2 = some ErrorCode.CANT_PARSE_STARTING_LINE :=
  ⟨rfl, rfl, by
    obtain ⟨e, he, hk⟩ := (execute_no_starting_line Model.garbled "GET" "/status"
      Model.accept none none Model.connection rfl (by decide) rfl).1
    rw [he, ← hk]
    rfl⟩

/-- C4, the code at a failing input: the read returns the 15 bytes `HTTP/1.1 200 OK`,
with no line end among them: a parser handed these 15 bytes reports no line. `execute`
hands the parser the 128 bytes of the buffer, in which the bytes of the request follow:
it finds the line `HTTP/1.1 200 OKP/1.1`, the header parser is called, and `execute`
returns a Response with status 200, description `OKP/1.1`, the headers of the request
and the cursor 87, beyond the end 15; it does not throw CANT_PARSE_STARTING_LINE. -/
theorem execute_unfinished_starting_line_accepted :
    (HttpRequestExecutor.execute_read Model.lineless
        (HttpRequestExecutor.execute_request Model.lineless "GET" "/status" Model.accept
          none) Model.connection).1 = 15
    ∧ Model.linelessBuffer.data.take 15 = "HTTP/1.1 200 OK".data
    ∧ ¬ ("\r\n".data <:+: Model.linelessBuffer.data.take 15)
    ∧ (Model.parseResponseStartingLine
        (ParsingCaret.create Model.linelessBuffer.data 15)).1 = none
    ∧ (Model.parseResponseStartingLine
        (ParsingCaret.create Model.linelessBuffer.data
          Model.linelessBuffer.getSize)).1
      = some { statusCode := 200, description := "OKP/1.1" }
    ∧ thrownCode (HttpRequestExecutor.execute Model.lineless "GET" "/status" Model.accept
        none none).2 = none
    ∧ Call.parseHeaders ∈
      (HttpRequestExecutor.execute Model.lineless "GET" "/status" Model.accept none none).1
    ∧ (HttpRequestExecutor.execute Model.lineless "GET" "/status" Model.accept
        none none).2.toOption.map
        (fun response => (response.statusCode, response.description, response.headers,
          response.bodyStream.pos, response.bodyStream.size))
      = some (200, "OKP/1.1", some [("Accept", "text/plain"), ("Host", "example.org"),
          ("Connection", "keep-alive")], 87, 15) :=
  ⟨rfl, rfl, by decide, rfl, rfl, rfl, by decide, rfl⟩

/-- C6 as stated fails: a read that returns -2147483649 makes `execute` throw
CANT_READ_RESPONSE with the read error code 2147483647, the value cut to 32 bits. -/
theorem execute_read_error_code_truncated :
    (HttpRequestExecutor.execute_read (Model.env 128 (.error (-2147483649)))
        (HttpRequestExecutor.execute_request (Model.env 128 (.error (-2147483649)))
          "GET" "/status" Model.accept none) Model.connection).1 = -2147483649
    ∧ (HttpRequestExecutor.execute (Model.env 128 (.error (-2147483649))) "GET" "/status"
        Model.accept none none).2
      = Except.error
        { errorCode := ErrorCode.CANT_READ_RESPONSE,
          message := "[oatpp::web::client::HttpRequestExecutor::execute()]: Failed to read response. Check out the RequestExecutionError::getReadErrorCode() for more information",
          readErrorCode := 2147483647 } :=
  ⟨rfl, rfl⟩

/-- C6, amended: when a connection is obtained and the read returns a negative value `r`,
`execute` throws the error CANT_READ_RESPONSE whose read error code is `r` cast to a
32-bit integer, which is `r` itself when `r` is at least `-2^31`; no parser is called. -/
theorem execute_read_error (env : Env) (method path : String) (headers : Headers)
    (body : Option Body) (connectionHandle : Option HttpConnectionHandle)
    (connection : IOStream) (r : Int)
    (hconn : (HttpRequestExecutor.execute_connection env connectionHandle).2
      = some connection)
    (hread : (HttpRequestExecutor.execute_read env
      (HttpRequestExecutor.execute_request env method path headers body) connection).1 = r)
    (hneg : r < 0) :
    (∃ e : RequestExecutionError,
      (HttpRequestExecutor.execute env method path headers body connectionHandle).2
        = Except.error e
      ∧ e.errorCode = ErrorCode.CANT_READ_RESPONSE
      ∧ e.readErrorCode = toInt32 r
      ∧ (-2 ^ 31 ≤ r → e.readErrorCode = r))
    ∧ Call.parseResponseStartingLine ∉
      (HttpRequestExecutor.execute env method path headers body connectionHandle).1
    ∧ Call.parseHeaders ∉
      (HttpRequestExecutor.execute env method path headers body connectionHandle).1 := by
  have h0 : ¬ r = 0 := by omega
  have htrace := execute_connection_no_parse env connectionHandle
  simp only [HttpRequestExecutor.execute, hconn, hread,
    HttpRequestExecutor.execute_response, h0, hneg, if_true, if_false]
  refine ⟨⟨_, rfl, rfl, rfl, fun hlo => ?_⟩, ?_, ?_⟩
  · exact toInt32_eq_self r hlo (by omega)
  · simp [htrace.1]
  · simp [htrace.2]

/-- C6, amended, at a read that fails with the code -1. -/
theorem execute_read_error_witness :
    (HttpRequestExecutor.execute_connection (Model.env 128 (.error (-1))) none).2
      = some Model.connection
    ∧ (-1 : Int) < 0
    ∧ ∃ e : RequestExecutionError,
      (HttpRequestExecutor.execute (Model.env 128 (.error (-1))) "GET" "/status"
        Model.accept none none).2 = Except.error e
      ∧ e.errorCode = ErrorCode.CANT_READ_RESPONSE
      ∧ e.readErrorCode = -1 :=
  ⟨rfl, by decide, by
    obtain ⟨e, he, hk, -, hr⟩ := (execute_read_error (Model.env 128 (.error (-1))) "GET"
      "/status" Model.accept none none Model.connection (-1) rfl rfl (by decide)).1
    exact ⟨e, he, hk, hr (by decide)⟩⟩

/-- C5, the code at a failing input: the read returns 34 bytes, `HTTP/1.1 200 OK`, a line
end and `Content-Length: 2`. They hold a status line and no empty line: a parser handed
these 34 bytes sets an error status. `execute` hands the parser the 128 bytes of the
buffer, in which the bytes of the request follow, and returns a Response whose headers
are made of them; it does not throw CANT_PARSE_HEADERS. -/
theorem execute_unfinished_headers_accepted :
    (HttpRequestExecutor.execute_read Model.truncated
        (HttpRequestExecutor.execute_request Model.truncated "GET" "/status" Model.accept
          none) Model.connection).1 = 34
    ∧ (Model.truncatedBuffer Model.accept).data.take 34
      = "HTTP/1.1 200 OK\r\nContent-Length: 2".data
    ∧ ¬ ("\r\n\r\n".data <:+: (Model.truncatedBuffer Model.accept).data.take 34)
    ∧ (Model.parseResponseStartingLine
        (ParsingCaret.create (Model.truncatedBuffer Model.accept).data 34)).1
      = some { statusCode := 200, description := "OK" }
    ∧ (Model.parseHeaders
        (Model.parseResponseStartingLine
          (ParsingCaret.create (Model.truncatedBuffer Model.accept).data 34)).2
        Status.create).2.1.code = 400
    ∧ thrownCode (HttpRequestExecutor.execute Model.truncated "GET" "/status" Model.accept
        none none).2 = none
    ∧ (HttpRequestExecutor.execute Model.truncated "GET" "/status" Model.accept
        none none).2.toOption.map (fun response => response.headers)
      = some (some [("Content-Length", "2/plain"), ("Host", "example.org"),
          ("Connection", "keep-alive")]) :=
  ⟨rfl, rfl, by decide, rfl, rfl, rfl, rfl⟩

/-- C7: in every successful execution in which the read returned `n` bytes (at most the
capacity, which fits 32 bits) and the header parser left the caret at `p`, the body
stream of the Response is over the connection and the buffer of the execution, from
position `p` to end `n`; the coroutine's `parseResponse` makes the same body stream. The
bytes it holds are `buffer[p .. n)`; a read yields the first of them in order and reads
the connection not at all, and leaves the others held; a read of as many as are held
yields all of them and leaves none, so that each is yielded once. -/
theorem execute_body_stream (env : Env) (self : ExecutorCoroutine) (method path : String)
    (headers : Headers) (body : Option Body)
    (connectionHandle : Option HttpConnectionHandle) (connection : IOStream)
    (ioBuffer : IOBuffer) (n : Int) (p : Nat) (response : Response)
    (hconn : (HttpRequestExecutor.execute_connection env connectionHandle).2
      = some connection)
    (hread : HttpRequestExecutor.execute_read env
      (HttpRequestExecutor.execute_request env method path headers body) connection
        = (n, ioBuffer))
    (hfill : n ≤ ioBuffer.getSize) (hcap : ioBuffer.getSize < 2 ^ 31)
    (hp : (env.parseHeaders
      (env.parseResponseStartingLine
        (ParsingCaret.create ioBuffer.data ioBuffer.getSize)).2 Status.create).2.2.pos = p)
    (hok : (HttpRequestExecutor.execute env method path headers body connectionHandle).2
      = Except.ok response) :
    response.bodyStream
      = { inputStream := some connection, buffer := ioBuffer, pos := p, size := n }
    ∧ (ExecutorCoroutine.parseResponse env
        { self with
          m_connection := some connection
          m_ioBuffer := ioBuffer
          m_bufferBytesLeftToRead := ioBuffer.getSize - n }).2.response?.map
        (fun r => r.bodyStream) = some response.bodyStream
    ∧ Model.buffered response.bodyStream = (ioBuffer.data.take n.toNat).drop p
    ∧ (∀ (count : Nat) (fromConnection : List Byte),
        Model.buffered response.bodyStream ≠ [] →
        (Model.bodyRead response.bodyStream count fromConnection).1
          = ((ioBuffer.data.take n.toNat).drop p).take count
        ∧ (Model.bodyRead response.bodyStream count fromConnection).2.1 = false
        ∧ Model.buffered (Model.bodyRead response.bodyStream count fromConnection).2.2
          = ((ioBuffer.data.take n.toNat).drop p).drop count)
    ∧ (∀ fromConnection : List Byte,
        Model.buffered response.bodyStream ≠ [] →
        (Model.bodyRead response.bodyStream (Model.buffered response.bodyStream).length
          fromConnection).1 = (ioBuffer.data.take n.toNat).drop p
        ∧ Model.buffered (Model.bodyRead response.bodyStream
          (Model.buffered response.bodyStream).length fromConnection).2.2 = []) := by
  have hstage : (HttpRequestExecutor.execute_response env connection ioBuffer n).2
      = Except.ok response := by
    simpa only [HttpRequestExecutor.execute, hconn, hread] using hok
  obtain ⟨hn, hstream, hasync⟩ := execute_response_ok env self connection ioBuffer n
    response hstage
  have hcast : toInt32 n = n := toInt32_eq_self n (by omega) (by omega)
  have hfields : response.bodyStream
      = { inputStream := some connection, buffer := ioBuffer, pos := p, size := n } := by
    rw [hstream, hcast, ParsingCaret.getPosition, hp]
    rfl
  have hheld : Model.buffered response.bodyStream = (ioBuffer.data.take n.toNat).drop p := by
    rw [hfields]
    simp [Model.buffered]
  refine ⟨hfields, hasync, hheld, ?_, ?_⟩
  · intro count fromConnection hne
    have h := bodyRead_buffered response.bodyStream count fromConnection hne
    rw [hheld] at h
    exact h
  · intro fromConnection hne
    have h := bodyRead_buffered response.bodyStream
      (Model.buffered response.bodyStream).length fromConnection hne
    rw [List.take_length, List.drop_length] at h
    exact ⟨h.1.trans hheld, h.2.2⟩

/-- C7, at the scenario of the spec: one read of the 40 bytes `HTTP/1.1 200 OK`,
`Content-Length: 2`, an empty line and `OK` gives a body stream from 38 to 40 whose held
bytes are `OK`; the first read of two bytes yields `OK` and leaves none. -/
theorem execute_body_stream_witness :
    (HttpRequestExecutor.execute Model.scenario "GET" "/status" Model.accept none none).2
      = Except.ok Model.scenarioResponse
    ∧ Model.scenarioResponse.bodyStream
      = { inputStream := some Model.connection, buffer := Model.scenarioBuffer,
          pos := (38 : Nat), size := 40 }
    ∧ Model.buffered Model.scenarioResponse.bodyStream = "OK".data
    ∧ (Model.bodyRead Model.scenarioResponse.bodyStream 2 []).1 = "OK".data
    ∧ (Model.bodyRead Model.scenarioResponse.bodyStream 2 []).2.1 = false :=
  have h := execute_body_stream Model.scenario (Model.coroutine Model.scenario) "GET"
    "/status" Model.accept none none Model.connection Model.scenarioBuffer 40 38
    Model.scenarioResponse rfl rfl (by decide) (by decide) rfl rfl
  ⟨rfl, h.1, h.2.2.1.trans rfl, ((h.2.2.2.1 2 [] (by decide)).1).trans rfl,
    (h.2.2.2.1 2 [] (by decide)).2.1⟩

/-- C8: for every caller-supplied header mapping, the headers of the outgoing request
are the caller's entries, each with its value and in their order, followed by what was
added; `Host` has the caller's value, or the provider's host if the caller had none;
`Connection` has the caller's value, or `keep-alive` if the caller had none; every other
key is as the caller left it; the injection applied to its own result changes nothing.
The request `execute` sends and the request `onConnectionReady` sends are this one. -/
theorem default_headers_put_if_absent (env : Env) (method path : String) (headers : Headers)
    (body : Option Body) :
    (∃ added : Headers,
      (HttpRequestExecutor.execute_request env method path headers body).headers
        = headers ++ added)
    ∧ (∀ key value : String, Headers.get headers key = some value →
        Headers.get (HttpRequestExecutor.execute_request env method path headers body).headers
          key = some value)
    ∧ Headers.get (HttpRequestExecutor.execute_request env method path headers body).headers
        Header.HOST = some ((Headers.get headers Header.HOST).getD env.getHost)
    ∧ Headers.get (HttpRequestExecutor.execute_request env method path headers body).headers
        Header.CONNECTION
      = some ((Headers.get headers Header.CONNECTION).getD
          Header.Value.CONNECTION_KEEP_ALIVE)
    ∧ (∀ key : String, keyEquals key Header.HOST = false →
        keyEquals key Header.CONNECTION = false →
        Headers.get (HttpRequestExecutor.execute_request env method path headers body).headers
          key = Headers.get headers key)
    ∧ (HttpRequestExecutor.execute_request env method path
        (HttpRequestExecutor.execute_request env method path headers body).headers
        body).headers
      = (HttpRequestExecutor.execute_request env method path headers body).headers
    ∧ (∀ (connectionHandle : Option HttpConnectionHandle) (connection : IOStream),
        (HttpRequestExecutor.execute_connection env connectionHandle).2 = some connection →
        Call.send connection (HttpRequestExecutor.execute_request env method path headers body)
          ∈ (HttpRequestExecutor.execute env method path headers body connectionHandle).1)
    ∧ (∀ (connectionHandle : Option HttpConnectionHandle) (connection : Option IOStream),
        (ExecutorCoroutine.onConnectionReady env
          (HttpRequestExecutor.executeAsync env method path headers body connectionHandle)
          connection).2.2
        = Action.sendAsync (HttpRequestExecutor.execute_request env method path headers body)
            (Action.flushAsync { outputStream := connection, buffer := env.createBuffer }
              (Action.yieldTo FunctionPtr.readResponse))
            { outputStream := connection, buffer := env.createBuffer }) := by
  have hhost := Headers.get_putIfNotExists_self headers Header.HOST env.getHost
  have hconn := Headers.get_putIfNotExists_self
    (Headers.putIfNotExists headers Header.HOST env.getHost) Header.CONNECTION
    Header.Value.CONNECTION_KEEP_ALIVE
  have hne : keyEquals Header.CONNECTION Header.HOST = false := by decide
  rw [Headers.get_putIfNotExists_of_ne headers Header.HOST env.getHost Header.CONNECTION hne]
    at hconn
  have hhost2 := Headers.get_putIfNotExists_of_some
    (Headers.putIfNotExists headers Header.HOST env.getHost) Header.CONNECTION
    Header.Value.CONNECTION_KEEP_ALIVE Header.HOST _ hhost
  refine ⟨?_, ?_, hhost2, hconn, ?_, ?_, ?_, ?_⟩
  · obtain ⟨a1, h1⟩ := Headers.putIfNotExists_append headers Header.HOST env.getHost
    obtain ⟨a2, h2⟩ := Headers.putIfNotExists_append
      (Headers.putIfNotExists headers Header.HOST env.getHost) Header.CONNECTION
      Header.Value.CONNECTION_KEEP_ALIVE
    refine ⟨a1 ++ a2, ?_⟩
    simp only [HttpRequestExecutor.execute_request, Request.createShared]
    rw [h2, h1, List.append_assoc]
  · intro key value hv
    exact Headers.get_putIfNotExists_of_some _ _ _ _ _
      (Headers.get_putIfNotExists_of_some _ _ _ _ _ hv)
  · intro key h1 h2
    simp only [HttpRequestExecutor.execute_request, Request.createShared]
    rw [Headers.get_putIfNotExists_of_ne _ _ _ _ h2,
      Headers.get_putIfNotExists_of_ne _ _ _ _ h1]
  · simp only [HttpRequestExecutor.execute_request, Request.createShared]
    have e1 : Headers.putIfNotExists
        (Headers.putIfNotExists (Headers.putIfNotExists headers Header.HOST env.getHost)
          Header.CONNECTION Header.Value.CONNECTION_KEEP_ALIVE) Header.HOST env.getHost
        = Headers.putIfNotExists (Headers.putIfNotExists headers Header.HOST env.getHost)
          Header.CONNECTION Header.Value.CONNECTION_KEEP_ALIVE :=
      Headers.putIfNotExists_of_some _ _ _ _ hhost2
    rw [e1]
    exact Headers.putIfNotExists_of_some _ _ _ _
      (Headers.get_putIfNotExists_self _ _ _)
  · intro connectionHandle connection hc
    simp [HttpRequestExecutor.execute, hc]
  · intro connectionHandle connection
    rfl

/-- C8, at a caller who supplies `Connection: close`: the request keeps it, and gets the
`Host` of the provider after it; sent again with these headers, the request is the same. -/
theorem default_headers_put_if_absent_witness :
    Headers.get [("Connection", "close")] Header.CONNECTION = some "close"
    ∧ Headers.get
        (HttpRequestExecutor.execute_request Model.scenario "GET" "/status"
          [("Connection", "close")] none).headers Header.CONNECTION = some "close"
    ∧ (HttpRequestExecutor.execute_request Model.scenario "GET" "/status"
        [("Connection", "close")] none).headers
      = [("Connection", "close"), ("Host", "example.org")]
    ∧ Call.send Model.connection
        (HttpRequestExecutor.execute_request Model.scenario "GET" "/status"
          [("Connection", "close")] none)
      ∈ (HttpRequestExecutor.execute Model.scenario "GET" "/status"
          [("Connection", "close")] none none).1 :=
  have h := default_headers_put_if_absent Model.scenario "GET" "/status"
    [("Connection", "close")] none
  ⟨rfl, h.2.1 Header.CONNECTION "close" rfl, rfl, h.2.2.2.2.2.2.1 none Model.connection rfl⟩

/-- C9: when the caller passes a ConnectionHandle, neither `execute` nor the coroutine's
`act` calls `getConnection` or `getConnectionAsync` on the provider; every send, flush
and read of `execute` is on the connection of the handle, and so is the body stream of
its Response; `act` runs `onConnectionReady` on the connection of the handle: the
coroutine keeps it in `m_connection`, the request is sent and flushed through a proxy
over it, `readResponse` reads from it, and `parseResponse` calls the parsers only. -/
theorem handle_skips_provider (env : Env) (method path : String) (headers : Headers)
    (body : Option Body) (handle : HttpConnectionHandle) :
    Call.getConnection ∉
      (HttpRequestExecutor.execute env method path headers body (some handle)).1
    ∧ Call.getConnectionAsync ∉
      (HttpRequestExecutor.execute env method path headers body (some handle)).1
    ∧ (∀ (connection : IOStream) (request : Request),
        Call.send connection request
          ∈ (HttpRequestExecutor.execute env method path headers body (some handle)).1 →
        handle.connection = some connection)
    ∧ (∀ connection : IOStream,
        Call.flush connection
          ∈ (HttpRequestExecutor.execute env method path headers body (some handle)).1 →
        handle.connection = some connection)
    ∧ (∀ connection : IOStream,
        Call.read connection
          ∈ (HttpRequestExecutor.execute env method path headers body (some handle)).1 →
        handle.connection = some connection)
    ∧ (∀ connection : IOStream, handle.connection = some connection →
        Call.send connection (HttpRequestExecutor.execute_request env method path headers body)
          ∈ (HttpRequestExecutor.execute env method path headers body (some handle)).1
        ∧ Call.read connection
          ∈ (HttpRequestExecutor.execute env method path headers body (some handle)).1)
    ∧ (∀ response : Response,
        (HttpRequestExecutor.execute env method path headers body (some handle)).2
          = Except.ok response →
        response.bodyStream.inputStream = handle.connection)
    ∧ Call.getConnection ∉
      (ExecutorCoroutine.act env
        (HttpRequestExecutor.executeAsync env method path headers body (some handle))).2.1
    ∧ Call.getConnectionAsync ∉
      (ExecutorCoroutine.act env
        (HttpRequestExecutor.executeAsync env method path headers body (some handle))).2.1
    ∧ (ExecutorCoroutine.act env
        (HttpRequestExecutor.executeAsync env method path headers body
          (some handle))).1.m_connection = handle.connection
    ∧ (ExecutorCoroutine.act env
        (HttpRequestExecutor.executeAsync env method path headers body (some handle))).2.2
      = Action.sendAsync (HttpRequestExecutor.execute_request env method path headers body)
          (Action.flushAsync { outputStream := handle.connection, buffer := env.createBuffer }
            (Action.yieldTo FunctionPtr.readResponse))
          { outputStream := handle.connection, buffer := env.createBuffer }
    ∧ ExecutorCoroutine.readResponse
        (ExecutorCoroutine.act env
          (HttpRequestExecutor.executeAsync env method path headers body (some handle))).1
      = Action.readSomeDataAsyncInline handle.connection 0 env.createBuffer.getSize
          (Action.yieldTo FunctionPtr.parseResponse)
    ∧ (∀ self : ExecutorCoroutine,
        Call.getConnection ∉ (ExecutorCoroutine.parseResponse env self).1
        ∧ Call.getConnectionAsync ∉ (ExecutorCoroutine.parseResponse env self).1) := by
  have hparse : ∀ (connection : IOStream) (ioBuffer : IOBuffer) (n : Int) (call : Call),
      call ∈ (HttpRequestExecutor.execute_response env connection ioBuffer n).1 →
      call ≠ Call.getConnection ∧ call ≠ Call.getConnectionAsync
      ∧ (∀ c r, call ≠ Call.send c r) ∧ (∀ c, call ≠ Call.flush c)
      ∧ (∀ c, call ≠ Call.read c) := by
    intro connection ioBuffer n call hcall
    rcases execute_response_calls env connection ioBuffer n call hcall with h | h <;>
      subst h <;> simp
  refine ⟨?_, ?_, ?_, ?_, ?_, ?_, ?_, ?_, ?_, rfl, rfl, rfl, ?_⟩
  rotate_right
  · intro self
    constructor
    · intro hmem
      rcases parseResponse_calls env self _ hmem with h | h <;> cases h
    · intro hmem
      rcases parseResponse_calls env self _ hmem with h | h <;> cases h
  · cases hc : handle.connection with
    | none => simp [HttpRequestExecutor.execute, HttpRequestExecutor.execute_connection, hc]
    | some c =>
      simp only [HttpRequestExecutor.execute, HttpRequestExecutor.execute_connection, hc]
      intro hmem
      simp only [List.nil_append, List.mem_append, List.mem_cons, List.mem_singleton,
        List.not_mem_nil, reduceCtorEq, false_or, or_false] at hmem
      exact (hparse _ _ _ _ hmem).1 rfl
  · cases hc : handle.connection with
    | none => simp [HttpRequestExecutor.execute, HttpRequestExecutor.execute_connection, hc]
    | some c =>
      simp only [HttpRequestExecutor.execute, HttpRequestExecutor.execute_connection, hc]
      intro hmem
      simp only [List.nil_append, List.mem_append, List.mem_cons, List.mem_singleton,
        List.not_mem_nil, reduceCtorEq, false_or, or_false] at hmem
      exact (hparse _ _ _ _ hmem).2.1 rfl
  · intro connection request
    cases hc : handle.connection with
    | none => simp [HttpRequestExecutor.execute, HttpRequestExecutor.execute_connection, hc]
    | some c =>
      simp only [HttpRequestExecutor.execute, HttpRequestExecutor.execute_connection, hc]
      intro hmem
      simp only [List.nil_append, List.mem_append, List.mem_cons, List.mem_singleton,
        List.not_mem_nil, reduceCtorEq, false_or, or_false, Call.send.injEq] at hmem
      rcases hmem with h | h
      · rw [h.1]
      · exact absurd rfl ((hparse _ _ _ _ h).2.2.1 connection request)
  · intro connection
    cases hc : handle.connection with
    | none => simp [HttpRequestExecutor.execute, HttpRequestExecutor.execute_connection, hc]
    | some c =>
      simp only [HttpRequestExecutor.execute, HttpRequestExecutor.execute_connection, hc]
      intro hmem
      simp only [List.nil_append, List.mem_append, List.mem_cons, List.mem_singleton,
        List.not_mem_nil, reduceCtorEq, false_or, or_false, Call.flush.injEq] at hmem
      rcases hmem with h | h
      · rw [h]
      · exact absurd rfl ((hparse _ _ _ _ h).2.2.2.1 connection)
  · intro connection
    cases hc : handle.connection with
    | none => simp [HttpRequestExecutor.execute, HttpRequestExecutor.execute_connection, hc]
    | some c =>
      simp only [HttpRequestExecutor.execute, HttpRequestExecutor.execute_connection, hc]
      intro hmem
      simp only [List.nil_append, List.mem_append, List.mem_cons, List.mem_singleton,
        List.not_mem_nil, reduceCtorEq, false_or, or_false, Call.read.injEq] at hmem
      rcases hmem with h | h
      · rw [h]
      · exact absurd rfl ((hparse _ _ _ _ h).2.2.2.2 connection)
  · intro connection hc
    simp [HttpRequestExecutor.execute, HttpRequestExecutor.execute_connection, hc]
  · intro response hok
    cases hc : handle.connection with
    | none =>
      simp [HttpRequestExecutor.execute, HttpRequestExecutor.execute_connection, hc] at hok
    | some c =>
      simp only [HttpRequestExecutor.execute, HttpRequestExecutor.execute_connection, hc]
        at hok
      obtain ⟨-, hstream, -⟩ := execute_response_ok env
        (HttpRequestExecutor.executeAsync env method path headers body (some handle)) c _ _
        response hok
      rw [hstream]
      rfl
  · simp [ExecutorCoroutine.act, HttpRequestExecutor.executeAsync, ExecutorCoroutine.create,
      ExecutorCoroutine.onConnectionReady]
  · simp [ExecutorCoroutine.act, HttpRequestExecutor.executeAsync, ExecutorCoroutine.create,
      ExecutorCoroutine.onConnectionReady]

/-- C9, at a handle on the connection 7 while the provider has the connection 1:
`getConnection` is not called, the read is on the connection 7, and the body stream of
the Response is over the connection 7. -/
theorem handle_skips_provider_witness :
    Model.scenario.getConnection = some { id := 1 }
    ∧ Call.getConnection ∉
      (HttpRequestExecutor.execute Model.scenario "GET" "/status" Model.accept none
        (some { connection := some { id := 7 } })).1
    ∧ Call.read { id := 7 } ∈
      (HttpRequestExecutor.execute Model.scenario "GET" "/status" Model.accept none
        (some { connection := some { id := 7 } })).1
    ∧ (HttpRequestExecutor.execute Model.scenario "GET" "/status" Model.accept none
        (some { connection := some { id := 7 } })).2.toOption.map
        (fun response => response.bodyStream.inputStream) = some (some { id := 7 }) :=
  have h := handle_skips_provider Model.scenario "GET" "/status" Model.accept none
    { connection := some { id := 7 } }
  ⟨rfl, h.1, (h.2.2.2.2.2.1 { id := 7 } rfl).2, rfl⟩

/-- C10, the code at a failing input: two executions on the same connection, whose read
returns the same 34 bytes into buffers of 128 bytes, one for a request with
`Accept: text/plain`, one with `Accept: text/html`. The two buffers agree on their first
34 bytes, yet the Responses differ in their headers and in the cursor, since the parser
is handed all 128 bytes: it runs on into the bytes of the request. The cursor handed to
the body stream is 87 in the first execution, beyond the end 34. -/
theorem execute_outcome_depends_on_unfilled_bytes :
    (HttpRequestExecutor.execute_read Model.truncated
        (HttpRequestExecutor.execute_request Model.truncated "GET" "/status" Model.accept
          none) Model.connection).1 = 34
    ∧ (HttpRequestExecutor.execute_read Model.truncated
        (HttpRequestExecutor.execute_request Model.truncated "GET" "/status"
          Model.acceptHtml none) Model.connection).1 = 34
    ∧ (Model.truncatedBuffer Model.accept).data.take 34
      = (Model.truncatedBuffer Model.acceptHtml).data.take 34
    ∧ (Model.truncatedBuffer Model.accept).getSize = 128
    ∧ (Model.truncatedBuffer Model.acceptHtml).getSize = 128
    ∧ (HttpRequestExecutor.execute Model.truncated "GET" "/status" Model.accept
        none none).2.toOption.map
        (fun response => (response.statusCode, response.description, response.headers,
          response.bodyStream.pos, response.bodyStream.size))
      = some (200, "OK", some [("Content-Length", "2/plain"), ("Host", "example.org"),
          ("Connection", "keep-alive")], 87, 34)
    ∧ (HttpRequestExecutor.execute Model.truncated "GET" "/status" Model.acceptHtml
        none none).2.toOption.map
        (fun response => (response.statusCode, response.description, response.headers,
          response.bodyStream.pos, response.bodyStream.size))
      = some (200, "OK", some [("Content-Length", "2/html"), ("Host", "example.org"),
          ("Connection", "keep-alive")], 86, 34) :=
  ⟨rfl, rfl, rfl, rfl, rfl, rfl, rfl⟩

/-- C11, the code at a failing input: the value -1 is a value of `v_int8` and of
`v_int32`; a tree set by `setValue<v_int8>(-1)` holds the byte 255 in a data word of
zeros, and `operator v_int32 ()` returns 255, not -1: the bytes are read into an
unsigned 64-bit word and cast from there, so the sign is not extended. Whatever the
members the header leaves undefined return, -1 is not what comes back. -/
theorem operator_T_loses_sign :
    data.Primitive.v_int8.holds (-1)
    ∧ data.Primitive.v_int32.holds (-1)
    ∧ (data.Tree.setValue data.Primitive.v_int8 (-1) data.Tree.create).m_data = 255
    ∧ data.Tree.operator_T data.Tree.members data.Primitive.v_int32
        (data.Tree.setValue data.Primitive.v_int8 (-1) data.Tree.create)
      = Except.ok (data.Cast.ofInteger 255)
    ∧ ∀ members : data.TreeMembers,
      data.Tree.operator_T members data.Primitive.v_int32
        (data.Tree.setValue data.Primitive.v_int8 (-1) data.Tree.create)
      ≠ Except.ok (data.Cast.ofInteger (-1)) :=
  ⟨by decide, by decide, rfl, rfl, fun members =>
    operator_T_negative_wider members data.Primitive.v_int8 data.Primitive.v_int32 (-1)
      data.Tree.create (by decide) (by decide) (by decide)⟩

end oatpp
